import Mathlib

/-!
# Verification of the Virtual Sensor Manager

A shallow embedding of `src/VSM.cpp` (SRPOOJA99/Virtual_Sensor_Manager).

The program has two sensor variants (`TemperatureSensor`, `PressureSensor`),
each holding a function-local `static std::default_random_engine` and a
`static std::uniform_real_distribution<double>`, a `SensorManager` owning an
ordered `std::vector` of sensors with `addSensor` / `readAll` /
`getSensorTypes`, and a driver loop that logs 20 timestamped samples to a CSV
file and the console.

Modelling choices:
* `std::default_random_engine` (libstdc++) is `std::minstd_rand0`, the linear
  congruential engine `x ↦ 16807 * x mod 2147483647` with default seed 1;
  its output range is `[1, 2147483646]`.
* `std::uniform_real_distribution<double>(a, b)` applied to this engine draws
  `generate_canonical<double, 53>`: it takes `k = 2` engine calls (since the
  engine supplies about 31 bits per call) and returns
  `a + (b - a) * ((x₁ - min) + (x₂ - min) * R) / R²` with
  `R = max - min + 1 = 2147483646`.  Real arithmetic is modelled by `ℚ`.
* The two `static` engines are the two fields of `RngState`; every read is
  explicit state passing.
* `std::fixed << std::setprecision(2)` printing of a value is modelled by
  `fmt2`: round to the nearest hundredth and print with exactly two decimals.
-/

namespace VSM

/-- Multiplier of `std::minstd_rand0` (libstdc++ `default_random_engine`). -/
def lcgMultiplier : ℕ := 16807

/-- Modulus of `std::minstd_rand0`, the Mersenne prime `2^31 - 1`. -/
def lcgModulus : ℕ := 2147483647

/-- `std::linear_congruential_engine::default_seed`. -/
def defaultSeed : ℕ := 1

/-- One engine call: advance the state and return it,
`state = (16807 * state) % 2147483647`. -/
def lcgNext (s : ℕ) : ℕ := (lcgMultiplier * s) % lcgModulus

/-- An engine state that can actually occur: seeding puts the state in
`[1, modulus - 1]` and every step keeps it there. -/
def EngineValid (s : ℕ) : Prop := 1 ≤ s ∧ s < lcgModulus

instance (s : ℕ) : Decidable (EngineValid s) := by
  unfold EngineValid; infer_instance

/-- `2^31 - 1` is prime (Lucas–Lehmer test for `mersenne 31`). -/
theorem lcgModulus_prime : Nat.Prime lcgModulus := by
  have h : mersenne 31 = lcgModulus := by norm_num [mersenne, lcgModulus]
  have := lucas_lehmer_sufficiency 31 (by norm_num) (by norm_num)
  rwa [h] at this

/-- The engine never leaves the set of valid states. -/
theorem lcgNext_valid {s : ℕ} (h : EngineValid s) : EngineValid (lcgNext s) := by
  obtain ⟨h1, h2⟩ := h
  refine ⟨?_, Nat.mod_lt _ (by norm_num [lcgModulus])⟩
  by_contra hc
  push_neg at hc
  have hn : (lcgMultiplier * s) % lcgModulus = 0 := by
    have := Nat.lt_one_iff.mp (by simpa [lcgNext] using hc)
    exact this
  have hdvd : lcgModulus ∣ lcgMultiplier * s := Nat.dvd_of_mod_eq_zero hn
  rcases (Nat.Prime.dvd_mul lcgModulus_prime).mp hdvd with hm | hs
  · exact absurd (Nat.le_of_dvd (by norm_num [lcgMultiplier]) hm)
      (by norm_num [lcgMultiplier, lcgModulus])
  · exact absurd (Nat.le_of_dvd (by omega) hs) (by omega)

/-- `max - min + 1` of the engine, the radix of `generate_canonical`. -/
def engineRange : ℕ := 2147483646

/-- `std::generate_canonical<double, 53>` over the engine: two engine calls,
combined into a single number in `[0, 1)`; returns the value and the state
after the two calls. -/
def generateCanonical (s : ℕ) : ℚ × ℕ :=
  let x1 := lcgNext s
  let x2 := lcgNext x1
  ((((x1 : ℚ) - 1) + ((x2 : ℚ) - 1) * (engineRange : ℚ)) / ((engineRange : ℚ) ^ 2), x2)

/-- `std::uniform_real_distribution<double>(a, b)` applied to the engine:
`a + (b - a) * generate_canonical(g)`. -/
def uniformReal (a b : ℚ) (s : ℕ) : ℚ × ℕ :=
  let c := generateCanonical s
  (a + (b - a) * c.1, c.2)

/-- The two concrete sensor variants of the program. -/
inductive Sensor
  | temperature
  | pressure
deriving DecidableEq, Repr

/-- `getType()`: the constant label of each variant. -/
def Sensor.getType : Sensor → String
  | .temperature => "Temperature"
  | .pressure => "Pressure"

/-- The two function-local `static std::default_random_engine` objects, one
per variant (`TemperatureSensor::readValue` and `PressureSensor::readValue`
each own one). -/
structure RngState where
  tempGen : ℕ
  pressGen : ℕ
deriving DecidableEq, Repr

/-- Process start: both `static` engines are default-constructed, seed 1. -/
def initRngState : RngState := ⟨defaultSeed, defaultSeed⟩

/-- `TemperatureSensor::readValue()`: `dist(gen)` with
`dist = uniform_real_distribution(20.0, 30.0)` on the temperature engine. -/
def temperatureReadValue (st : RngState) : ℚ × RngState :=
  let r := uniformReal 20 30 st.tempGen
  (r.1, { st with tempGen := r.2 })

/-- `PressureSensor::readValue()`: `dist(gen)` with
`dist = uniform_real_distribution(0.9, 1.1)` on the pressure engine. -/
def pressureReadValue (st : RngState) : ℚ × RngState :=
  let r := uniformReal (9 / 10) (11 / 10) st.pressGen
  (r.1, { st with pressGen := r.2 })

/-- Virtual dispatch of `readValue()` over the two variants. -/
def Sensor.readValue : Sensor → RngState → ℚ × RngState
  | .temperature => temperatureReadValue
  | .pressure => pressureReadValue

/-- `SensorManager`: owns `std::vector<std::unique_ptr<Sensor>> sensors`. -/
structure SensorManager where
  sensors : List Sensor
deriving DecidableEq, Repr

/-- `SensorManager()` default construction: empty vector. -/
def emptyManager : SensorManager := ⟨[]⟩

/-- `addSensor`: `sensors.push_back(std::move(sensor))`. -/
def addSensor (m : SensorManager) (s : Sensor) : SensorManager :=
  ⟨m.sensors ++ [s]⟩

/-- A manager reached by `addSensor`-ing each element of `l` in order. -/
def buildManager (l : List Sensor) : SensorManager :=
  l.foldl addSensor emptyManager

/-- The `readAll` loop: `for (const auto& s : sensors)
values.push_back(s->readValue());`, with the engine states threaded. -/
def readAllGo : List Sensor → RngState → List ℚ × RngState
  | [], st => ([], st)
  | s :: rest, st =>
    let r := s.readValue st
    let t := readAllGo rest r.2
    (r.1 :: t.1, t.2)

/-- `SensorManager::readAll()`. -/
def readAll (m : SensorManager) (st : RngState) : List ℚ × RngState :=
  readAllGo m.sensors st

/-- The `getSensorTypes` loop: `for (const auto& s : sensors)
types.push_back(s->getType());`. -/
def getTypesGo : List Sensor → List String
  | [] => []
  | s :: rest => s.getType :: getTypesGo rest

/-- `SensorManager::getSensorTypes()`. -/
def getSensorTypes (m : SensorManager) : List String :=
  getTypesGo m.sensors

/-- Instrumented `readAll` loop: additionally records, in order, one event
`(sensor, returned value)` for every `readValue()` invocation it performs. -/
def readValueEvents : List Sensor → RngState → List (Sensor × ℚ) × RngState
  | [], st => ([], st)
  | s :: rest, st =>
    let r := s.readValue st
    let t := readValueEvents rest r.2
    ((s, r.1) :: t.1, t.2)

/-- Decimal digit character. -/
def digitChar (d : ℕ) : Char := Char.ofNat (48 + d % 10)

/-- Decimal digits of a natural number, least significant first. -/
def digitsRev (n : ℕ) : List Char :=
  if h : n < 10 then [digitChar n]
  else digitChar (n % 10) :: digitsRev (n / 10)
termination_by n
decreasing_by exact Nat.div_lt_self (by omega) (by omega)

/-- Decimal rendering of a natural number. -/
def natStr (n : ℕ) : String := ⟨(digitsRev n).reverse⟩

/-- Two-digit zero-padded rendering (used for `%H`, `%M`, `%S` and for the
two decimals). -/
def pad2 (n : ℕ) : String := if n < 10 then "0" ++ natStr n else natStr n

/-- `std::fixed << std::setprecision(2)` rendering of a real value: round to
the nearest hundredth and print with exactly two digits after the point. -/
def fmt2 (q : ℚ) : String :=
  let n : ℤ := round (q * 100)
  let sign := if n < 0 then "-" else ""
  sign ++ natStr (n.natAbs / 100) ++ "." ++ pad2 (n.natAbs % 100)

/-- `getTimestamp()`: `strftime "%H:%M:%S"` of the current wall-clock time. -/
def formatHMS (h m s : ℕ) : String :=
  pad2 h ++ ":" ++ pad2 m ++ ":" ++ pad2 s

/-- A string containing no comma (so it is a single CSV field). -/
def commaFree (s : String) : Prop := ¬ ',' ∈ s.data

instance (s : String) : Decidable (commaFree s) := by
  unfold commaFree; infer_instance

/-- Number of commas in a string; a line of `k` commas has `k + 1`
comma-separated fields. -/
def commaCount (s : String) : ℕ := s.data.count ','

/-- One console line of the sampling loop:
`cout << "[" << ts << "] "` followed by
`cout << types[j] << ": " << fixed << setprecision(2) << values[j] << "  "`
for each index `j` of `types`. -/
def consoleLine (ts : String) (types : List String) (values : List ℚ) : String :=
  (List.range types.length).foldl
    (fun acc j => acc ++ types.getD j "" ++ ": " ++ fmt2 (values.getD j 0) ++ "  ")
    ("[" ++ ts ++ "] ")

/-- The console line exactly as the spec sentence words it: a bracketed
timestamp, then for each sensor its type label, a colon, the two-decimal
reading, and two trailing spaces — with no other characters. -/
def consoleLineSpec (ts : String) (types : List String) (values : List ℚ) : String :=
  "[" ++ ts ++ "]" ++
    String.join ((types.zip values).map fun p => p.1 ++ ":" ++ fmt2 p.2 ++ "  ")

/-- The CSV header row written before the loop. -/
def csvHeader : String := "Time(s),Timestamp,Temperature(C),Pressure(bar)"

/-- One CSV data row: `logfile << fixed << setprecision(2) << time << ","
<< getTimestamp();` then `logfile << "," << v` for each value. -/
def csvRow (time : ℚ) (ts : String) (values : List ℚ) : String :=
  fmt2 time ++ "," ++ ts ++ String.join (values.map fun v => "," ++ fmt2 v)

/-- The manager built in `main()`: a `TemperatureSensor` then a
`PressureSensor`. -/
def mainManager : SensorManager :=
  addSensor (addSensor emptyManager .temperature) .pressure

/-- `totalSamples` in `main()`. -/
def totalSamples : ℕ := 20

/-- The sampling loop of `main()`, restricted to the CSV rows it writes:
iteration `i` (with `n` iterations left, elapsed time `t`, engine states
`st`) reads all sensors and writes one row; `wall` gives the wall-clock
`(hour, minute, second)` of each iteration (external input). -/
def driverRows (wall : ℕ → ℕ × ℕ × ℕ) : ℕ → ℕ → ℚ → RngState → List String
  | _, 0, _, _ => []
  | i, n + 1, t, st =>
    let r := readAll mainManager st
    csvRow t (formatHMS (wall i).1 (wall i).2.1 (wall i).2.2) r.1 ::
      driverRows wall (i + 1) n (t + 1) r.2

/-- The lines of `sensor_data.csv` after a full run: the header, then the
rows of the 20-iteration loop starting at time `0.0` from freshly seeded
engines. -/
def csvFileLines (wall : ℕ → ℕ × ℕ × ℕ) : List String :=
  csvHeader :: driverRows wall 0 totalSamples 0 initRngState

/-- Engine states after one loop iteration (one `readAll` on the main
manager). -/
def stepState (st : RngState) : RngState := (readAll mainManager st).2

/-- Engine states after `k` loop iterations. -/
def stateAfter : ℕ → RngState → RngState
  | 0, st => st
  | k + 1, st => stateAfter k (stepState st)

/-- The sequence of `readAll` results over `n` iterations of the loop from a
given engine state. -/
def runTrace : ℕ → RngState → List (List ℚ)
  | 0, _ => []
  | n + 1, st =>
    let r := readAll mainManager st
    r.1 :: runTrace n r.2

/-! ## Random-engine lemmas -/

/-- Both function-local `static` engines hold a valid state. -/
def ValidState (st : RngState) : Prop :=
  EngineValid st.tempGen ∧ EngineValid st.pressGen

instance (st : RngState) : Decidable (ValidState st) := by
  unfold ValidState; infer_instance

theorem generateCanonical_mem {s : ℕ} (h : EngineValid s) :
    0 ≤ (generateCanonical s).1 ∧ (generateCanonical s).1 < 1 := by
  obtain ⟨h1, h2⟩ := lcgNext_valid h
  obtain ⟨h3, h4⟩ := lcgNext_valid (lcgNext_valid h)
  have e1 : (1 : ℚ) ≤ (lcgNext s : ℚ) := by exact_mod_cast h1
  have e2 : ((lcgNext s : ℕ) : ℚ) ≤ 2147483646 := by
    have : (lcgNext s : ℕ) ≤ 2147483646 := by
      have := h2; norm_num [lcgModulus] at this; omega
    exact_mod_cast this
  have e3 : (1 : ℚ) ≤ (lcgNext (lcgNext s) : ℚ) := by exact_mod_cast h3
  have e4 : ((lcgNext (lcgNext s) : ℕ) : ℚ) ≤ 2147483646 := by
    have : (lcgNext (lcgNext s) : ℕ) ≤ 2147483646 := by
      have := h4; norm_num [lcgModulus] at this; omega
    exact_mod_cast this
  simp only [generateCanonical]
  norm_num [engineRange]
  constructor
  · apply div_nonneg
    · nlinarith
    · norm_num
  · rw [div_lt_one (by norm_num)]
    nlinarith

theorem uniformReal_mem {a b : ℚ} {s : ℕ} (hab : a < b) (h : EngineValid s) :
    a ≤ (uniformReal a b s).1 ∧ (uniformReal a b s).1 < b := by
  obtain ⟨hc0, hc1⟩ := generateCanonical_mem h
  simp only [uniformReal]
  constructor
  · nlinarith
  · nlinarith

theorem uniformReal_state (a b : ℚ) (s : ℕ) :
    (uniformReal a b s).2 = lcgNext (lcgNext s) := rfl

theorem uniformReal_state_valid (a b : ℚ) {s : ℕ} (h : EngineValid s) :
    EngineValid (uniformReal a b s).2 :=
  lcgNext_valid (lcgNext_valid h)

/-- `TemperatureSensor::readValue` touches only the temperature engine and
keeps it valid. -/
theorem temperatureReadValue_state (st : RngState) :
    (temperatureReadValue st).2 =
      ⟨lcgNext (lcgNext st.tempGen), st.pressGen⟩ := rfl

/-- `PressureSensor::readValue` touches only the pressure engine and keeps
it valid. -/
theorem pressureReadValue_state (st : RngState) :
    (pressureReadValue st).2 =
      ⟨st.tempGen, lcgNext (lcgNext st.pressGen)⟩ := rfl

theorem readValue_valid (s : Sensor) {st : RngState} (h : ValidState st) :
    ValidState (s.readValue st).2 := by
  obtain ⟨hT, hP⟩ := h
  cases s with
  | temperature =>
      exact ⟨lcgNext_valid (lcgNext_valid hT), hP⟩
  | pressure =>
      exact ⟨hT, lcgNext_valid (lcgNext_valid hP)⟩

theorem temperatureReadValue_mem {st : RngState} (h : EngineValid st.tempGen) :
    20 ≤ (temperatureReadValue st).1 ∧ (temperatureReadValue st).1 < 30 :=
  uniformReal_mem (by norm_num) h

theorem pressureReadValue_mem {st : RngState} (h : EngineValid st.pressGen) :
    9 / 10 ≤ (pressureReadValue st).1 ∧ (pressureReadValue st).1 < 11 / 10 :=
  uniformReal_mem (by norm_num) h

theorem initRngState_valid : ValidState initRngState := by decide

/-! ## Manager lemmas -/

theorem getTypesGo_eq_map (l : List Sensor) :
    getTypesGo l = l.map Sensor.getType := by
  induction l with
  | nil => rfl
  | cons s rest ih => simp [getTypesGo, ih]

theorem getTypesGo_length (l : List Sensor) :
    (getTypesGo l).length = l.length := by
  simp [getTypesGo_eq_map]

theorem readAllGo_length (l : List Sensor) (st : RngState) :
    (readAllGo l st).1.length = l.length := by
  induction l generalizing st with
  | nil => rfl
  | cons s rest ih => simp [readAllGo, ih]

theorem buildManager_sensors (l : List Sensor) :
    (buildManager l).sensors = l := by
  suffices h : ∀ (m : SensorManager), (l.foldl addSensor m).sensors = m.sensors ++ l by
    simpa [buildManager, emptyManager] using h emptyManager
  induction l with
  | nil => intro m; simp
  | cons s rest ih => intro m; simp [addSensor, ih]

theorem readAllGo_append (l₁ l₂ : List Sensor) (st : RngState) :
    readAllGo (l₁ ++ l₂) st =
      ((readAllGo l₁ st).1 ++ (readAllGo l₂ (readAllGo l₁ st).2).1,
        (readAllGo l₂ (readAllGo l₁ st).2).2) := by
  induction l₁ generalizing st with
  | nil => rfl
  | cons s rest ih => simp [readAllGo, ih]

/-- The `i`-th value returned by the `readAll` loop is the value produced by
the `i`-th sensor's `readValue()`, invoked in the engine state left behind by
the reads of the first `i` sensors. -/
theorem readAllGo_getElem (l : List Sensor) (st : RngState) (i : ℕ)
    (hi : i < l.length) :
    (readAllGo l st).1[i]? =
      some ((l.get ⟨i, hi⟩).readValue (readAllGo (l.take i) st).2).1 := by
  induction l generalizing st i with
  | nil => simp at hi
  | cons s rest ih =>
      cases i with
      | zero => simp [readAllGo]
      | succ j =>
          have hj : j < rest.length := by simpa using hi
          simp only [readAllGo, List.take_succ_cons, List.getElem?_cons_succ,
            List.get_cons_succ]
          exact ih (s.readValue st).2 j hj

theorem readValueEvents_fst (l : List Sensor) (st : RngState) :
    (readValueEvents l st).1.map Prod.fst = l := by
  induction l generalizing st with
  | nil => rfl
  | cons s rest ih => simp [readValueEvents, ih]

theorem readValueEvents_snd (l : List Sensor) (st : RngState) :
    (readValueEvents l st).1.map Prod.snd = (readAllGo l st).1 := by
  induction l generalizing st with
  | nil => rfl
  | cons s rest ih => simp [readValueEvents, readAllGo, ih]

theorem readValueEvents_state (l : List Sensor) (st : RngState) :
    (readValueEvents l st).2 = (readAllGo l st).2 := by
  induction l generalizing st with
  | nil => rfl
  | cons s rest ih => simp [readValueEvents, readAllGo, ih]

/-- Every event the instrumented loop records from a valid state pairs a
sensor with a value in that sensor's range, and the state stays valid. -/
theorem readValueEvents_mem_range (l : List Sensor) (st : RngState)
    (h : ValidState st) :
    ∀ p ∈ (readValueEvents l st).1,
      (p.1 = Sensor.temperature → 20 ≤ p.2 ∧ p.2 < 30) ∧
      (p.1 = Sensor.pressure → 9 / 10 ≤ p.2 ∧ p.2 < 11 / 10) := by
  induction l generalizing st with
  | nil => simp [readValueEvents]
  | cons s rest ih =>
      intro p hp
      simp only [readValueEvents, List.mem_cons] at hp
      rcases hp with hp | hp
      · subst hp
        constructor
        · intro hs; subst hs
          exact temperatureReadValue_mem h.1
        · intro hs; subst hs
          exact pressureReadValue_mem h.2
      · exact ih (s.readValue st).2 (readValue_valid s h) p hp

/-! ## Formatting lemmas -/

theorem digitChar_ne_comma (d : ℕ) : digitChar d ≠ ',' := by
  unfold digitChar
  have h : d % 10 < 10 := Nat.mod_lt _ (by norm_num)
  set k := d % 10 with hk
  interval_cases k <;> decide

theorem digitsRev_ne_comma (n : ℕ) : ∀ c ∈ digitsRev n, c ≠ ',' := by
  induction n using Nat.strong_induction_on with
  | _ n ih =>
      rw [digitsRev]
      split
      · intro c hc
        simp only [List.mem_singleton] at hc
        subst hc
        exact digitChar_ne_comma n
      · intro c hc
        rcases List.mem_cons.mp hc with hc | hc
        · subst hc; exact digitChar_ne_comma (n % 10)
        · exact ih (n / 10) (Nat.div_lt_self (by omega) (by omega)) c hc

theorem commaFree_natStr (n : ℕ) : commaFree (natStr n) := by
  intro hmem
  have : (',' : Char) ∈ digitsRev n := by
    simpa [natStr, List.mem_reverse] using hmem
  exact digitsRev_ne_comma n ',' this rfl

theorem commaFree_append {a b : String} (ha : commaFree a) (hb : commaFree b) :
    commaFree (a ++ b) := by
  intro hmem
  rw [String.data_append, List.mem_append] at hmem
  rcases hmem with h | h
  · exact ha h
  · exact hb h

theorem commaFree_pad2 (n : ℕ) : commaFree (pad2 n) := by
  unfold pad2
  split
  · exact commaFree_append (by decide) (commaFree_natStr n)
  · exact commaFree_natStr n

theorem commaFree_fmt2 (q : ℚ) : commaFree (fmt2 q) := by
  unfold fmt2
  refine commaFree_append (commaFree_append (commaFree_append ?_ ?_) ?_) ?_
  · split <;> decide
  · exact commaFree_natStr _
  · decide
  · exact commaFree_pad2 _

theorem commaFree_formatHMS (h m s : ℕ) : commaFree (formatHMS h m s) := by
  unfold formatHMS
  refine commaFree_append (commaFree_append (commaFree_append
    (commaFree_append ?_ ?_) ?_) ?_) ?_
  · exact commaFree_pad2 h
  · decide
  · exact commaFree_pad2 m
  · decide
  · exact commaFree_pad2 s

theorem commaCount_append (a b : String) :
    commaCount (a ++ b) = commaCount a + commaCount b := by
  simp [commaCount, String.data_append, List.count_append]

theorem commaCount_eq_zero {s : String} (h : commaFree s) : commaCount s = 0 := by
  simpa [commaCount, List.count_eq_zero] using h

theorem natStr_length_lt10 {n : ℕ} (h : n < 10) : (natStr n).length = 1 := by
  have hd : digitsRev n = [digitChar n] := by rw [digitsRev]; simp [h]
  simp [natStr, String.length, hd]

theorem pad2_length {n : ℕ} (h : n < 100) : (pad2 n).length = 2 := by
  unfold pad2
  split
  next h10 =>
    rw [String.length_append, natStr_length_lt10 h10]
    rfl
  next h10 =>
    have hd : digitsRev n = digitChar (n % 10) :: digitsRev (n / 10) := by
      rw [digitsRev]; simp [h10]
    have hq : (digitsRev (n / 10)).length = 1 := by
      have h1 : n / 10 < 10 := by omega
      rw [digitsRev]; simp [h1]
    simp [natStr, String.length, hd, hq]

/-- `fmt2` always prints exactly two digits after the decimal point. -/
theorem fmt2_twoDecimals (q : ℚ) :
    ∃ a b : String, fmt2 q = a ++ "." ++ b ∧ b.length = 2 := by
  refine ⟨(if round (q * 100) < 0 then "-" else "") ++
    natStr ((round (q * 100)).natAbs / 100), pad2 ((round (q * 100)).natAbs % 100),
    ?_, pad2_length (Nat.mod_lt _ (by norm_num))⟩
  rfl

theorem stringJoin_nil : String.join ([] : List String) = "" := rfl

theorem stringFoldl_append (l : List String) :
    ∀ a : String, l.foldl (fun x y => x ++ y) a = a ++ String.join l := by
  induction l with
  | nil =>
      intro a
      simp [String.join, String.append_empty]
  | cons s t ih =>
      intro a
      have h1 : String.join (s :: t) = t.foldl (fun x y => x ++ y) s := by
        simp [String.join]
      rw [List.foldl_cons, ih, h1, ih s, String.append_assoc]

theorem stringJoin_cons (s : String) (l : List String) :
    String.join (s :: l) = s ++ String.join l := by
  have h1 : String.join (s :: l) = l.foldl (fun x y => x ++ y) s := by
    simp [String.join]
  rw [h1, stringFoldl_append]

/-- The console-printing loop, written as the spec words it up to the two
separator spaces: head, then one `label ++ ": " ++ value ++ "  "` block per
sensor. -/
theorem consoleLine_eq_join (types : List String) :
    ∀ (values : List ℚ) (acc : String), types.length = values.length →
      (List.range types.length).foldl
        (fun acc j => acc ++ types.getD j "" ++ ": " ++ fmt2 (values.getD j 0) ++ "  ")
        acc =
      acc ++ String.join ((types.zip values).map fun p => p.1 ++ ": " ++ fmt2 p.2 ++ "  ") := by
  induction types with
  | nil =>
      intro values acc _
      simp [stringJoin_nil, String.append_empty]
  | cons t ts ih =>
      intro values acc hlen
      cases values with
      | nil => simp at hlen
      | cons v vs =>
          have hlen' : ts.length = vs.length := by simpa using hlen
          rw [List.length_cons, List.range_succ_eq_map, List.foldl_cons, List.foldl_map]
          simp only [List.getD_cons_succ, List.getD_cons_zero]
          rw [ih vs _ hlen', List.zip_cons_cons, List.map_cons, stringJoin_cons]
          simp [String.append_assoc]

theorem consoleLine_join (ts : String) (types : List String) (values : List ℚ)
    (h : types.length = values.length) :
    consoleLine ts types values =
      "[" ++ ts ++ "] " ++
        String.join ((types.zip values).map fun p => p.1 ++ ": " ++ fmt2 p.2 ++ "  ") := by
  unfold consoleLine
  rw [consoleLine_eq_join types values _ h]

/-! ## Driver-loop lemmas -/

theorem readAll_mainManager (st : RngState) :
    readAll mainManager st =
      ([(temperatureReadValue st).1, (pressureReadValue (temperatureReadValue st).2).1],
        (pressureReadValue (temperatureReadValue st).2).2) := rfl

theorem csvRow_pair (t : ℚ) (ts : String) (v1 v2 : ℚ) :
    csvRow t ts [v1, v2] =
      fmt2 t ++ "," ++ ts ++ "," ++ fmt2 v1 ++ "," ++ fmt2 v2 := by
  unfold csvRow
  rw [List.map_cons, List.map_cons, List.map_nil, stringJoin_cons, stringJoin_cons]
  simp [stringJoin_nil, String.append_assoc, String.append_empty]

theorem driverRows_length (wall : ℕ → ℕ × ℕ × ℕ) :
    ∀ (n i : ℕ) (t : ℚ) (st : RngState), (driverRows wall i n t st).length = n := by
  intro n
  induction n with
  | zero => intro i t st; rfl
  | succ m ih =>
      intro i t st
      simp [driverRows, ih]

theorem driverRows_getElem (wall : ℕ → ℕ × ℕ × ℕ) :
    ∀ (n k i : ℕ) (t : ℚ) (st : RngState), k < n →
      (driverRows wall i n t st)[k]? =
        some (csvRow (t + k)
          (formatHMS (wall (i + k)).1 (wall (i + k)).2.1 (wall (i + k)).2.2)
          (readAll mainManager (stateAfter k st)).1) := by
  intro n
  induction n with
  | zero => intro k i t st hk; omega
  | succ m ih =>
      intro k i t st hk
      cases k with
      | zero =>
          simp [driverRows, stateAfter]
      | succ j =>
          have hj : j < m := by omega
          have h1 : (driverRows wall i (m + 1) t st)[j + 1]? =
              (driverRows wall (i + 1) m (t + 1) (readAll mainManager st).2)[j]? := by
            simp [driverRows]
          rw [h1, ih j (i + 1) (t + 1) (readAll mainManager st).2 hj]
          have h2 : i + 1 + j = i + (j + 1) := by omega
          have h3 : (t + 1) + (j : ℚ) = t + ((j : ℚ) + 1) := by ring
          have h4 : stateAfter j (readAll mainManager st).2 = stateAfter (j + 1) st := rfl
          rw [h2, h3, h4]
          norm_num

/-! ## Claims -/

/-- Claim C1: for every manager state reached by adding `N` sensors (any
`N ≥ 0`), both `readAll()` and `getSensorTypes()` return sequences of length
exactly `N`. -/
theorem claim_C1 (l : List Sensor) (st : RngState) :
    (readAll (buildManager l) st).1.length = l.length ∧
    (getSensorTypes (buildManager l)).length = l.length := by
  constructor
  · rw [readAll, buildManager_sensors]
    exact readAllGo_length l st
  · rw [getSensorTypes, buildManager_sensors]
    exact getTypesGo_length l

/-- Claim C2: for every valid index `i`, the `i`-th element of `readAll()`
is the reading of the same underlying sensor whose label is the `i`-th
element of `getSensorTypes()`; both orders equal the order in which the
sensors were added, and the positional correspondence is preserved by
`addSensor` (and `readAll` / `getSensorTypes` do not mutate the manager at
all, being functions of it). -/
theorem claim_C2 (l : List Sensor) (st : RngState) (s : Sensor) (i : ℕ)
    (hi : i < l.length) :
    (getSensorTypes (buildManager l))[i]? = some (l.get ⟨i, hi⟩).getType ∧
    (readAll (buildManager l) st).1[i]? =
      some ((l.get ⟨i, hi⟩).readValue (readAll (buildManager (l.take i)) st).2).1 ∧
    getSensorTypes (buildManager l) = l.map Sensor.getType ∧
    (getSensorTypes (addSensor (buildManager l) s))[i]? =
      (getSensorTypes (buildManager l))[i]? ∧
    (readAll (addSensor (buildManager l) s) st).1[i]? =
      (readAll (buildManager l) st).1[i]? := by
  have hbuild : (buildManager l).sensors = l := buildManager_sensors l
  have htypes : getSensorTypes (buildManager l) = l.map Sensor.getType := by
    rw [getSensorTypes, hbuild, getTypesGo_eq_map]
  refine ⟨?_, ?_, htypes, ?_, ?_⟩
  · rw [htypes, List.getElem?_map, List.getElem?_eq_getElem hi]
    simp [List.get_eq_getElem]
  · rw [readAll, hbuild, readAll, buildManager_sensors]
    exact readAllGo_getElem l st i hi
  · rw [getSensorTypes, addSensor, hbuild, getTypesGo_eq_map, List.map_append, htypes]
    exact List.getElem?_append_left (by simpa using hi)
  · rw [readAll, addSensor, hbuild, readAll, hbuild, readAllGo_append]
    exact List.getElem?_append_left (by rw [readAllGo_length]; exact hi)

theorem claim_C2_witness :
    0 < ([Sensor.temperature, Sensor.pressure] : List Sensor).length ∧
    ((getSensorTypes (buildManager [Sensor.temperature, Sensor.pressure]))[0]? =
        some (([Sensor.temperature, Sensor.pressure] :
          List Sensor).get ⟨0, by decide⟩).getType ∧
      (readAll (buildManager [Sensor.temperature, Sensor.pressure]) initRngState).1[0]? =
        some ((([Sensor.temperature, Sensor.pressure] :
            List Sensor).get ⟨0, by decide⟩).readValue
          (readAll (buildManager (([Sensor.temperature, Sensor.pressure] :
            List Sensor).take 0)) initRngState).2).1 ∧
      getSensorTypes (buildManager [Sensor.temperature, Sensor.pressure]) =
        ([Sensor.temperature, Sensor.pressure] : List Sensor).map Sensor.getType ∧
      (getSensorTypes (addSensor (buildManager [Sensor.temperature, Sensor.pressure])
          Sensor.pressure))[0]? =
        (getSensorTypes (buildManager [Sensor.temperature, Sensor.pressure]))[0]? ∧
      (readAll (addSensor (buildManager [Sensor.temperature, Sensor.pressure])
          Sensor.pressure) initRngState).1[0]? =
        (readAll (buildManager [Sensor.temperature, Sensor.pressure]) initRngState).1[0]?) :=
  ⟨by decide,
    claim_C2 [Sensor.temperature, Sensor.pressure] initRngState Sensor.pressure 0 (by decide)⟩

/-- Claim C3: one call to `readAll()` invokes `readValue()` exactly once on
each registered sensor, in registration order, and returns exactly those
results — the invocation log of the instrumented loop is the sensor list
itself, and the returned values are exactly the logged results in the same
order. -/
theorem claim_C3 (m : SensorManager) (st : RngState) :
    (readValueEvents m.sensors st).1.map Prod.fst = m.sensors ∧
    (readAll m st).1 = (readValueEvents m.sensors st).1.map Prod.snd ∧
    (readValueEvents m.sensors st).2 = (readAll m st).2 := by
  refine ⟨readValueEvents_fst m.sensors st, ?_, readValueEvents_state m.sensors st⟩
  rw [readAll, readValueEvents_snd]

/-- Claim C4: `addSensor(sensor)` appends the new sensor at the end of the
internal ordered sequence, never fails (it is a total function), and leaves
every previously registered sensor and their relative order unchanged. -/
theorem claim_C4 (m : SensorManager) (s : Sensor) (i : ℕ)
    (hi : i < m.sensors.length) :
    (addSensor m s).sensors = m.sensors ++ [s] ∧
    (addSensor m s).sensors.length = m.sensors.length + 1 ∧
    (addSensor m s).sensors[i]? = m.sensors[i]? ∧
    (addSensor m s).sensors.getLast? = some s := by
  refine ⟨rfl, by simp [addSensor], ?_, List.getLast?_concat m.sensors⟩
  exact List.getElem?_append_left hi

theorem claim_C4_witness :
    0 < mainManager.sensors.length ∧
    ((addSensor mainManager Sensor.temperature).sensors =
        mainManager.sensors ++ [Sensor.temperature] ∧
      (addSensor mainManager Sensor.temperature).sensors.length =
        mainManager.sensors.length + 1 ∧
      (addSensor mainManager Sensor.temperature).sensors[0]? =
        mainManager.sensors[0]? ∧
      (addSensor mainManager Sensor.temperature).sensors.getLast? =
        some Sensor.temperature) :=
  ⟨by decide, claim_C4 mainManager Sensor.temperature 0 (by decide)⟩

/-- Claim C5: from any valid engine states — in particular from the
default-seeded start — every `TemperatureSensor::readValue()` result lies in
`[20, 30)` and every `PressureSensor::readValue()` result lies in
`[0.9, 1.1)`, over an arbitrarily long sequence of reads. -/
theorem claim_C5 (st : RngState) (ops : List Sensor) (h : ValidState st) :
    (20 ≤ (temperatureReadValue st).1 ∧ (temperatureReadValue st).1 < 30) ∧
    (9 / 10 ≤ (pressureReadValue st).1 ∧ (pressureReadValue st).1 < 11 / 10) ∧
    ∀ p ∈ (readValueEvents ops st).1,
      (p.1 = Sensor.temperature → 20 ≤ p.2 ∧ p.2 < 30) ∧
      (p.1 = Sensor.pressure → 9 / 10 ≤ p.2 ∧ p.2 < 11 / 10) :=
  ⟨temperatureReadValue_mem h.1, pressureReadValue_mem h.2,
    readValueEvents_mem_range ops st h⟩

theorem claim_C5_witness :
    ValidState initRngState ∧
    ((20 ≤ (temperatureReadValue initRngState).1 ∧
        (temperatureReadValue initRngState).1 < 30) ∧
      (9 / 10 ≤ (pressureReadValue initRngState).1 ∧
        (pressureReadValue initRngState).1 < 11 / 10) ∧
      ∀ p ∈ (readValueEvents [Sensor.temperature, Sensor.pressure] initRngState).1,
        (p.1 = Sensor.temperature → 20 ≤ p.2 ∧ p.2 < 30) ∧
        (p.1 = Sensor.pressure → 9 / 10 ≤ p.2 ∧ p.2 < 11 / 10)) :=
  ⟨by decide, claim_C5 initRngState [Sensor.temperature, Sensor.pressure] (by decide)⟩

/-- Claim C6: `getType()` returns the constant label of its variant —
`"Temperature"` for `TemperatureSensor` and `"Pressure"` for
`PressureSensor` — so a manager holding a temperature sensor then a pressure
sensor answers `getSensorTypes()` with exactly
`["Temperature", "Pressure"]`. -/
theorem claim_C6 :
    Sensor.temperature.getType = "Temperature" ∧
    Sensor.pressure.getType = "Pressure" ∧
    getSensorTypes mainManager = ["Temperature", "Pressure"] ∧
    getSensorTypes (buildManager [Sensor.temperature, Sensor.pressure]) =
      ["Temperature", "Pressure"] := by
  refine ⟨rfl, rfl, rfl, ?_⟩
  rw [getSensorTypes, buildManager_sensors]
  rfl

theorem commaCount_csvRow_pair (t : ℚ) (h m s : ℕ) (v1 v2 : ℚ) :
    commaCount (csvRow t (formatHMS h m s) [v1, v2]) = 3 := by
  have hc : commaCount "," = 1 := by decide
  rw [csvRow_pair, commaCount_append, commaCount_append, commaCount_append,
    commaCount_append, commaCount_append, commaCount_append,
    commaCount_eq_zero (commaFree_fmt2 t),
    commaCount_eq_zero (commaFree_formatHMS h m s),
    commaCount_eq_zero (commaFree_fmt2 v1),
    commaCount_eq_zero (commaFree_fmt2 v2), hc]

theorem driverRows_commaCount (wall : ℕ → ℕ × ℕ × ℕ) :
    ∀ (n i : ℕ) (t : ℚ) (st : RngState),
      ∀ line ∈ driverRows wall i n t st, commaCount line = 3 := by
  intro n
  induction n with
  | zero => intro i t st line hline; simp [driverRows] at hline
  | succ m ih =>
      intro i t st line hline
      rcases List.mem_cons.mp hline with hline | hline
      · subst hline
        rw [readAll_mainManager]
        exact commaCount_csvRow_pair t (wall i).1 (wall i).2.1 (wall i).2.2 _ _
      · exact ih (i + 1) (t + 1) (readAll mainManager st).2 line hline

/-- Claim C7 counterexample: the console line the loop actually prints is
not the character-exact concatenation the spec sentence describes (the code
also prints a space after the closing bracket and a space after each
colon). -/
theorem claim_C7_counterexample :
    consoleLine "10:00:00" ["Temperature"] [25] ≠
      consoleLineSpec "10:00:00" ["Temperature"] [25] := by
  decide

/-- Claim C7 (amended): every console line emitted per sample consists of a
bracketed timestamp followed by a space, then for each registered sensor, in
registration order, its type label, a colon and a space, the reading
formatted with two decimals, and two trailing spaces. -/
theorem claim_C7 (ts : String) (types : List String) (values : List ℚ)
    (h : types.length = values.length) :
    consoleLine ts types values =
      "[" ++ ts ++ "] " ++
        String.join ((types.zip values).map fun p => p.1 ++ ": " ++ fmt2 p.2 ++ "  ") ∧
    ∀ v ∈ values, ∃ a b : String, fmt2 v = a ++ "." ++ b ∧ b.length = 2 :=
  ⟨consoleLine_join ts types values h, fun v _ => fmt2_twoDecimals v⟩

theorem claim_C7_witness :
    (["Temperature", "Pressure"] : List String).length = ([25, 1] : List ℚ).length ∧
    (consoleLine "10:00:00" ["Temperature", "Pressure"] [25, 1] =
        "[" ++ "10:00:00" ++ "] " ++
          String.join (((["Temperature", "Pressure"] : List String).zip
            ([25, 1] : List ℚ)).map fun p => p.1 ++ ": " ++ fmt2 p.2 ++ "  ") ∧
      ∀ v ∈ ([25, 1] : List ℚ), ∃ a b : String, fmt2 v = a ++ "." ++ b ∧ b.length = 2) :=
  ⟨rfl, claim_C7 "10:00:00" ["Temperature", "Pressure"] [25, 1] rfl⟩

/-- Claim C8: with `totalSamples = 20` the produced file is exactly 21
lines — the header row `Time(s),Timestamp,Temperature(C),Pressure(bar)`
followed by 20 data rows, each made of exactly 4 comma-separated fields:
the elapsed seconds in two-decimal formatting, the `HH:MM:SS` timestamp, and
one two-decimal reading per registered sensor in registration order. -/
theorem claim_C8 (wall : ℕ → ℕ × ℕ × ℕ) :
    (csvFileLines wall).length = 21 ∧
    (csvFileLines wall).head? = some "Time(s),Timestamp,Temperature(C),Pressure(bar)" ∧
    (∀ k : ℕ, k < 20 →
      (csvFileLines wall)[k + 1]? =
        some (fmt2 (k : ℚ) ++ "," ++
          formatHMS (wall k).1 (wall k).2.1 (wall k).2.2 ++ "," ++
          fmt2 (temperatureReadValue (stateAfter k initRngState)).1 ++ "," ++
          fmt2 (pressureReadValue
            (temperatureReadValue (stateAfter k initRngState)).2).1)) ∧
    ∀ line ∈ (csvFileLines wall).tail, commaCount line = 3 := by
  refine ⟨?_, rfl, ?_, ?_⟩
  · rw [csvFileLines, List.length_cons, driverRows_length]
    rfl
  · intro k hk
    have h1 : (csvFileLines wall)[k + 1]? =
        (driverRows wall 0 totalSamples 0 initRngState)[k]? := by
      rw [csvFileLines, List.getElem?_cons_succ]
    rw [h1, driverRows_getElem wall totalSamples k 0 0 initRngState
      (by simpa [totalSamples] using hk)]
    rw [readAll_mainManager]
    rw [csvRow_pair]
    norm_num
  · intro line hline
    exact driverRows_commaCount wall totalSamples 0 0 initRngState line hline

theorem readValueEvents_pressGen (ops : List Sensor) :
    ∀ st : RngState, (∀ s ∈ ops, s = Sensor.temperature) →
      (readValueEvents ops st).2.pressGen = st.pressGen := by
  induction ops with
  | nil => intro st _; rfl
  | cons s rest ih =>
      intro st h
      have hs : s = Sensor.temperature := h s (List.mem_cons_self s rest)
      subst hs
      have := ih (Sensor.temperature.readValue st).2
        (fun x hx => h x (List.mem_cons_of_mem _ hx))
      simpa [readValueEvents] using this

theorem readValueEvents_tempGen (ops : List Sensor) :
    ∀ st : RngState, (∀ s ∈ ops, s = Sensor.pressure) →
      (readValueEvents ops st).2.tempGen = st.tempGen := by
  induction ops with
  | nil => intro st _; rfl
  | cons s rest ih =>
      intro st h
      have hs : s = Sensor.pressure := h s (List.mem_cons_self s rest)
      subst hs
      have := ih (Sensor.pressure.readValue st).2
        (fun x hx => h x (List.mem_cons_of_mem _ hx))
      simpa [readValueEvents] using this

/-- Claim C9: `TemperatureSensor::readValue()` advances only the temperature
variant's engine (two engine steps) and leaves the pressure variant's engine
untouched, and vice versa; consequently any sequence of reads of one variant
alone leaves the other variant's engine state unchanged. -/
theorem claim_C9 (st : RngState) (opsT opsP : List Sensor)
    (hT : ∀ s ∈ opsT, s = Sensor.temperature)
    (hP : ∀ s ∈ opsP, s = Sensor.pressure) :
    (temperatureReadValue st).2.pressGen = st.pressGen ∧
    (temperatureReadValue st).2.tempGen = lcgNext (lcgNext st.tempGen) ∧
    (pressureReadValue st).2.tempGen = st.tempGen ∧
    (pressureReadValue st).2.pressGen = lcgNext (lcgNext st.pressGen) ∧
    (readValueEvents opsT st).2.pressGen = st.pressGen ∧
    (readValueEvents opsP st).2.tempGen = st.tempGen :=
  ⟨rfl, rfl, rfl, rfl,
    readValueEvents_pressGen opsT st hT,
    readValueEvents_tempGen opsP st hP⟩

theorem claim_C9_witness :
    (∀ s ∈ ([Sensor.temperature] : List Sensor), s = Sensor.temperature) ∧
    (∀ s ∈ ([Sensor.pressure] : List Sensor), s = Sensor.pressure) ∧
    ((temperatureReadValue initRngState).2.pressGen = initRngState.pressGen ∧
      (temperatureReadValue initRngState).2.tempGen =
        lcgNext (lcgNext initRngState.tempGen) ∧
      (pressureReadValue initRngState).2.tempGen = initRngState.tempGen ∧
      (pressureReadValue initRngState).2.pressGen =
        lcgNext (lcgNext initRngState.pressGen) ∧
      (readValueEvents [Sensor.temperature] initRngState).2.pressGen =
        initRngState.pressGen ∧
      (readValueEvents [Sensor.pressure] initRngState).2.tempGen =
        initRngState.tempGen) :=
  ⟨by decide, by decide,
    claim_C9 initRngState [Sensor.temperature] [Sensor.pressure]
      (by decide) (by decide)⟩

/-- Claim C10: `readValue()` is a deterministic function of the variant's
engine state — equal states give equal values and equal successor states —
and since each `static` engine is default-constructed (seed 1,
`initRngState`), any two program runs produce the identical sequence of
readings. -/
theorem claim_C10 (s1 s2 : RngState) (h : s1 = s2) (r1 r2 : RngState)
    (hr1 : r1 = initRngState) (hr2 : r2 = initRngState) :
    (∀ sn : Sensor, sn.readValue s1 = sn.readValue s2) ∧
    (∀ n : ℕ, runTrace n s1 = runTrace n s2) ∧
    (∀ n : ℕ, runTrace n r1 = runTrace n r2) := by
  subst h; subst hr1; subst hr2
  exact ⟨fun _ => rfl, fun _ => rfl, fun _ => rfl⟩

theorem claim_C10_witness :
    initRngState = initRngState ∧
    ((∀ sn : Sensor, sn.readValue initRngState = sn.readValue initRngState) ∧
      (∀ n : ℕ, runTrace n initRngState = runTrace n initRngState) ∧
      (∀ n : ℕ, runTrace n initRngState = runTrace n initRngState)) :=
  ⟨rfl, claim_C10 initRngState initRngState rfl initRngState initRngState rfl rfl⟩

end VSM
